import Mathlib

/-! Verification of the proxy-pool rotation and tunneling engine of
railway-proxy-server. The definitions below are a shallow embedding of the
mutable state and the operations of src/server.js (plus, where a claim cites
it, initializeClients of src/enhanced-proxy-server.js); the theorems settle
the specification's claims about them. JavaScript objects keyed by client
name are modelled as association lists, JavaScript Sets of strings as lists
read through decidable membership, and truthiness of strings (the empty
string is falsy) is modelled explicitly where the code relies on it. -/

/-- A JavaScript plain-object property read, modelled as association-list
lookup over own properties (the prototype chain is not modelled). -/
def jsGet {α : Type} : List (String × α) → String → Option α
  | [], _ => none
  | kv :: rest, k => if kv.1 = k then some kv.2 else jsGet rest k

/-- One client's entry in clients-config.json: a password and an ordered
list of upstream proxy URI strings. -/
structure ClientConfig where
  password : String
  proxies : List String
  deriving DecidableEq

/-- The per-client rotation state of server.js that a configuration load
touches: currentProxies (the rotation queues) and rotationCounters. -/
structure ServerState where
  currentProxies : List (String × List String)
  rotationCounters : List (String × Nat)
  deriving DecidableEq

/-- loadClientsConfig of src/server.js (lines 37-61): for every client of the
new configuration, the rotation queue and counter are initialized only when
the client had no existing queue (the code guards with
if (!currentProxies[clientName]); an existing array is always truthy), and
clients absent from the new configuration are deleted. An existing client
keeps its queue and its counter unchanged. -/
def loadClientsConfig (cfg : List (String × ClientConfig)) (st : ServerState) :
    ServerState :=
  { currentProxies :=
      cfg.map (fun nc => (nc.1,
        match jsGet st.currentProxies nc.1 with
        | some q => q
        | none => nc.2.proxies)),
    rotationCounters :=
      cfg.map (fun nc => (nc.1,
        match jsGet st.currentProxies nc.1 with
        | some _ => (jsGet st.rotationCounters nc.1).getD 0
        | none => 0)) }

/-- initializeClients of src/enhanced-proxy-server.js (lines 688-711): all
per-client maps are cleared first, so every client's queue is rebuilt from
the configuration order and every counter becomes 0 (the code's
rotationCounters[clientName] || 0 reads the freshly cleared map). -/
def initializeClients (cfg : List (String × ClientConfig)) : ServerState :=
  { currentProxies := cfg.map (fun nc => (nc.1, nc.2.proxies)),
    rotationCounters := cfg.map (fun nc => (nc.1, 0)) }

/-- getCurrentProxy of src/server.js (lines 126-133) for a client whose queue
exists: scan head-to-tail for the first entry not in blockedProxies; if every
entry is blocked, fall back to list[0] || null, where a JavaScript empty
string is falsy and therefore yields null. -/
def getCurrentProxy (blocked : List String) (list : List String) :
    Option String :=
  match list.find? (fun x => decide (x ∉ blocked)) with
  | some x => some x
  | none =>
    match list with
    | [] => none
    | x :: _ => if x = "" then none else some x

/-- The ring step of rotateProxy: list.shift() followed by list.push() of the
shifted element. -/
def jsShift : List String → List String
  | [] => []
  | x :: xs => xs ++ [x]

/-- The bounded scan of rotateProxy (src/server.js lines 158-163): while the
head is blocked and fewer than fuel steps were taken, pop the head and append
it to the tail. The code bounds attempts by list.length, which the rotation
steps keep constant. -/
def skipBlocked (blocked : List String) : Nat → List String → List String
  | 0, l => l
  | _ + 1, [] => []
  | fuel + 1, x :: xs =>
    if x ∈ blocked then skipBlocked blocked fuel (xs ++ [x]) else x :: xs

/-- The effect of rotateProxy of src/server.js (lines 148-170) on the queue:
a queue of at most one entry is left untouched; otherwise the head is moved
to the tail and the bounded blocked-head scan runs with fuel list.length. -/
def rotateQueue (blocked : List String) (l : List String) : List String :=
  if l.length ≤ 1 then l else skipBlocked blocked l.length (jsShift l)

/-- One client's rotation state: its queue and its rotation counter. -/
structure ClientRot where
  queue : List String
  counter : Nat
  deriving DecidableEq

/-- rotateProxy of src/server.js (lines 148-170) for a client whose queue
exists: with at most one entry it returns getCurrentProxy and changes
nothing (in particular the counter is not incremented); otherwise it rotates
the queue, increments the counter, runs the blocked-head scan, and returns
the new head. The 500 ms delay and the timestamp are timing only. -/
def rotateProxy (blocked : List String) (c : ClientRot) :
    ClientRot × Option String :=
  if c.queue.length ≤ 1 then (c, getCurrentProxy blocked c.queue)
  else
    ({ queue := rotateQueue blocked c.queue, counter := c.counter + 1 },
      (rotateQueue blocked c.queue).head?)

/-- A TCP socket, abstractly: only whether it has been destroyed is tracked.
Destroying an already-destroyed socket raises (the defensive case the code's
try/catch swallows); destroying a live socket marks it destroyed. -/
structure NetSocket where
  destroyed : Bool
  deriving DecidableEq

/-- Destroy a socket; raises on an already-destroyed one. -/
def destroySocket (s : NetSocket) : Except String NetSocket :=
  if s.destroyed then Except.error "ERR_SOCKET_CLOSED"
  else Except.ok { destroyed := true }

/-- try { socket.destroy(); } catch {}: the error, if any, is swallowed. -/
def tryDestroy (s : NetSocket) : NetSocket :=
  match destroySocket s with
  | Except.ok s2 => s2
  | Except.error _ => s

/-- One registered tunnel: the pair of sockets spliced together. -/
structure TunnelPair where
  clientSocket : NetSocket
  proxySocket : NetSocket
  deriving DecidableEq

/-- closeUserTunnels of src/server.js (lines 135-146): for a missing set it
returns 0; otherwise every pair's two sockets are destroyed with errors
swallowed, n is incremented once per pair, and the set is cleared. The result
is (returned count, the pairs after destruction, the client's set after the
call). -/
def closeUserTunnels (tunnels : Option (List TunnelPair)) :
    Nat × List TunnelPair × Option (List TunnelPair) :=
  match tunnels with
  | none => (0, [], none)
  | some set =>
    (set.length,
      set.map (fun p =>
        { clientSocket := tryDestroy p.clientSocket,
          proxySocket := tryDestroy p.proxySocket }),
      some [])

/-- JavaScript String.prototype.split with a one-character separator: always
returns at least one (possibly empty) piece, and no piece contains the
separator. -/
def splitOnChar (c : Char) : List Char → List (List Char)
  | [] => [[]]
  | a :: rest =>
    if a = c then [] :: splitOnChar c rest
    else
      match splitOnChar c rest with
      | [] => [[a]]
      | p :: ps => (a :: p) :: ps

/-- The 6-bit value of a base64 alphabet character; none for a character
outside the alphabet (Node's base64 decoder ignores those). -/
def base64Val (c : Char) : Option Nat :=
  let n := c.toNat
  if 65 ≤ n ∧ n ≤ 90 then some (n - 65)
  else if 97 ≤ n ∧ n ≤ 122 then some (n - 97 + 26)
  else if 48 ≤ n ∧ n ≤ 57 then some (n - 48 + 52)
  else if n = 43 then some 62
  else if n = 47 then some 63
  else none

/-- Pack a run of 6-bit values into 8-bit bytes, four values to three bytes,
dropping the bits of an incomplete trailing byte as Node does. -/
def packGroups : List Nat → List Nat
  | a :: b :: c :: d :: rest =>
    (a * 4 + b / 16) :: ((b % 16) * 16 + c / 4) :: ((c % 4) * 64 + d) ::
      packGroups rest
  | [a, b] => [a * 4 + b / 16]
  | [a, b, c] => [a * 4 + b / 16, (b % 16) * 16 + c / 4]
  | _ => []

/-- Buffer.from(tok, 'base64').toString(): lenient base64 decode, with the
decoded bytes read back as characters (exact for the ASCII range this server
handles). -/
def base64DecodeChars (tok : List Char) : List Char :=
  (packGroups (tok.filterMap base64Val)).map Char.ofNat

/-- The base64 alphabet character of a 6-bit value. -/
def b64Char (n : Nat) : Char :=
  if n < 26 then Char.ofNat (65 + n)
  else if n < 52 then Char.ofNat (97 + (n - 26))
  else if n < 62 then Char.ofNat (48 + (n - 52))
  else if n = 62 then '+'
  else '/'

/-- Encode a run of bytes as base64 characters with padding. -/
def encodeGroups : List Nat → List Char
  | [] => []
  | [a] => [b64Char (a / 4), b64Char ((a % 4) * 16), '=', '=']
  | [a, b] =>
    [b64Char (a / 4), b64Char ((a % 4) * 16 + b / 16), b64Char ((b % 16) * 4),
      '=']
  | a :: b :: c :: rest =>
    b64Char (a / 4) :: b64Char ((a % 4) * 16 + b / 16) ::
      b64Char ((b % 16) * 4 + c / 64) :: b64Char (c % 64) :: encodeGroups rest

/-- Buffer.from(s).toString('base64'), at character-code level (exact for the
ASCII range this server handles). -/
def base64Encode (s : String) : String :=
  String.mk (encodeGroups (s.data.map Char.toNat))

/-- String.prototype.startsWith, as a structural test on character lists. -/
def startsWith (pre s : List Char) : Bool :=
  match pre, s with
  | [], _ => true
  | _ :: _, [] => false
  | a :: as, b :: bs => (a == b) && startsWith as bs

/-- authenticate of src/server.js (lines 172-178): reject a missing, empty or
non-Basic header; otherwise base64-decode the token after the first space,
split the decoded text on every colon, destructure the first piece as u and
the second as p (undefined when there is no colon), and return u exactly when
users[u] === p. The === of two undefined values is true, which is why the
comparison is between options. -/
def authenticate (users : List (String × String)) (header : Option String) :
    Option String :=
  match header with
  | none => none
  | some h =>
    if h = "" then none
    else if startsWith "Basic ".data h.data = false then none
    else
      let tok := ((splitOnChar ' ' h.data)[1]?).getD []
      let parts := splitOnChar ':' (base64DecodeChars tok)
      let u : String := String.mk (parts.headD [])
      let p : Option String := (parts[1]?).map String.mk
      if (jsGet users u == p) = true then some u else none

/-- The POST /block handler of src/server.js (lines 350-363) after
authentication: a missing or empty proxyUrl is a 400; a proxyUrl outside the
client's own pool (or a client without a pool) is a 403 and the blocked set
is untouched; otherwise the URI is added to the process-wide blocked set.
The result is (HTTP status, blocked set after the call). -/
def blockEndpoint (currentProxies : List (String × List String))
    (blocked : List String) (user : String) (body : Option String) :
    Nat × List String :=
  match body with
  | none => (400, blocked)
  | some url =>
    if url = "" then (400, blocked)
    else
      match jsGet currentProxies user with
      | none => (403, blocked)
      | some userProxies =>
        if url ∈ userProxies then
          (200, if url ∈ blocked then blocked else blocked ++ [url])
        else (403, blocked)

/-- The POST /unblock handler of src/server.js (lines 365-378) after
authentication: a missing or empty proxyUrl is a 400; otherwise the URI is
deleted from the process-wide blocked set if present (200) and a 404 is
returned if absent. No ownership check is performed: the authenticated user
is only used for logging. -/
def unblockEndpoint (blocked : List String) (_user : String)
    (body : Option String) : Nat × List String :=
  match body with
  | none => (400, blocked)
  | some url =>
    if url = "" then (400, blocked)
    else if url ∈ blocked then (200, blocked.erase url)
    else (404, blocked)

/-- The parsed current upstream (parseProxyUrl of src/server.js lines
119-124): host, port and the upstream credentials. -/
structure UpstreamInfo where
  host : String
  port : Nat
  username : String
  password : String
  deriving DecidableEq

/-- The injected header value Basic base64(upstreamUser:upstreamPass). -/
def proxyAuthHeaderValue (up : UpstreamInfo) : String :=
  "Basic " ++ base64Encode (up.username ++ ":" ++ up.password)

/-- A JavaScript object-literal property write: overwrite the value in place
when the key exists, otherwise append the pair. -/
def headersSet (hs : List (String × String)) (k v : String) :
    List (String × String) :=
  if hs.any (fun kv => kv.1 == k) then
    hs.map (fun kv => if kv.1 == k then (k, v) else kv)
  else hs ++ [(k, v)]

/-- The delete operator on an object's property: drop every pair with the
key. -/
def headersDelete (hs : List (String × String)) (k : String) :
    List (String × String) :=
  hs.filter (fun kv => !(kv.1 == k))

/-- The outbound request options handleHttpProxy builds. -/
structure OutboundOptions where
  hostname : String
  port : Nat
  path : String
  method : String
  headers : List (String × String)
  deriving DecidableEq

/-- The options object of handleHttpProxy (src/server.js lines 513-525, and
identically src/enhanced-proxy-server.js lines 1503-1517): spread the inbound
headers, set 'Proxy-Authorization' (capitalized, a distinct key) to the
upstream credentials, then delete the lowercase 'proxy-authorization' key
that Node gives every inbound header. -/
def buildUpstreamOptions (up : UpstreamInfo) (method url : String)
    (reqHeaders : List (String × String)) : OutboundOptions :=
  { hostname := up.host,
    port := up.port,
    path := url,
    method := method,
    headers :=
      headersDelete
        (headersSet reqHeaders "Proxy-Authorization" (proxyAuthHeaderValue up))
        "proxy-authorization" }

/-! Helper lemmas about the embedded operations. -/

theorem jsGet_map_some {α β : Type} (f : String × α → β)
    (m : List (String × α)) (k : String) (v : α) (h : jsGet m k = some v) :
    jsGet (m.map (fun nc => (nc.1, f nc))) k = some (f (k, v)) := by
  induction m with
  | nil => simp [jsGet] at h
  | cons kv rest ih =>
    obtain ⟨k1, v1⟩ := kv
    by_cases hk : k1 = k
    · subst hk
      have h2 : some v1 = some v := by simpa [jsGet] using h
      obtain rfl : v1 = v := Option.some.inj h2
      simp [jsGet]
    · simp only [jsGet, if_neg hk] at h
      simpa [jsGet, hk] using ih h

theorem splitOnChar_sep_not_mem (c : Char) (l : List Char) :
    ∀ part ∈ splitOnChar c l, c ∉ part := by
  induction l with
  | nil =>
    intro part hp
    simp only [splitOnChar, List.mem_singleton] at hp
    subst hp
    simp
  | cons a rest ih =>
    intro part hp
    simp only [splitOnChar] at hp
    by_cases hac : a = c
    · rw [if_pos hac] at hp
      rcases List.mem_cons.mp hp with h1 | h2
      · subst h1; simp
      · exact ih part h2
    · rw [if_neg hac] at hp
      cases hsp : splitOnChar c rest with
      | nil =>
        rw [hsp] at hp
        simp only [List.mem_singleton] at hp
        subst hp
        simp only [List.mem_singleton]
        intro hca
        exact hac hca.symm
      | cons p ps =>
        rw [hsp] at hp
        rcases List.mem_cons.mp hp with h1 | h2
        · subst h1
          intro hmem
          rcases List.mem_cons.mp hmem with h3 | h4
          · exact hac h3.symm
          · exact ih p (hsp ▸ List.mem_cons_self p ps) h4
        · exact ih part (hsp ▸ List.mem_cons_of_mem p h2)

theorem skipBlocked_head_unblocked (blocked : List String) (fuel : Nat)
    (x : String) (xs : List String) (hx : x ∉ blocked) :
    skipBlocked blocked fuel (x :: xs) = x :: xs := by
  cases fuel with
  | zero => rfl
  | succ n => simp [skipBlocked, hx]

theorem skipBlocked_reaches (blocked : List String) :
    ∀ (l1 : List String) (y : String) (l2 : List String) (fuel : Nat),
      (∀ z ∈ l1, z ∈ blocked) → y ∉ blocked → l1.length ≤ fuel →
      skipBlocked blocked fuel (l1 ++ y :: l2) = y :: (l2 ++ l1) := by
  intro l1
  induction l1 with
  | nil =>
    intro y l2 fuel _ hy _
    simpa using skipBlocked_head_unblocked blocked fuel y l2 hy
  | cons a l1 ih =>
    intro y l2 fuel hb hy hf
    cases fuel with
    | zero => simp at hf
    | succ n =>
      have ha : a ∈ blocked := hb a (List.mem_cons_self a l1)
      have hrec := ih y (l2 ++ [a]) n
        (fun z hz => hb z (List.mem_cons_of_mem a hz)) hy
        (by simp only [List.length_cons] at hf; omega)
      calc skipBlocked blocked (n + 1) ((a :: l1) ++ y :: l2)
          = skipBlocked blocked n ((l1 ++ y :: l2) ++ [a]) := by
            simp [skipBlocked, ha]
        _ = skipBlocked blocked n (l1 ++ y :: (l2 ++ [a])) := by
            rw [List.append_assoc]; rfl
        _ = y :: ((l2 ++ [a]) ++ l1) := hrec
        _ = y :: (l2 ++ a :: l1) := by simp

theorem skipBlocked_all_blocked (blocked : List String) :
    ∀ (fuel : Nat) (l : List String), (∀ z ∈ l, z ∈ blocked) →
      skipBlocked blocked fuel l = l.rotate fuel := by
  intro fuel
  induction fuel with
  | zero => intro l _; simp [skipBlocked]
  | succ n ih =>
    intro l hb
    cases l with
    | nil => simp [skipBlocked]
    | cons x xs =>
      have hx : x ∈ blocked := hb x (List.mem_cons_self x xs)
      rw [List.rotate_cons_succ]
      show skipBlocked blocked (n + 1) (x :: xs) = (xs ++ [x]).rotate n
      rw [show skipBlocked blocked (n + 1) (x :: xs)
          = skipBlocked blocked n (xs ++ [x]) by simp [skipBlocked, hx]]
      exact ih (xs ++ [x]) (fun z hz => by
        rcases List.mem_append.mp hz with h | h
        · exact hb z (List.mem_cons_of_mem x h)
        · simp only [List.mem_singleton] at h
          subst h
          exact hx)

theorem exists_unblocked_decomp (blocked : List String) :
    ∀ (l : List String), (∃ x ∈ l, x ∉ blocked) →
      ∃ l1 y l2, l = l1 ++ y :: l2 ∧ (∀ z ∈ l1, z ∈ blocked) ∧ y ∉ blocked ∧
        l.find? (fun x => decide (x ∉ blocked)) = some y := by
  intro l
  induction l with
  | nil => rintro ⟨x, hx, _⟩; simp at hx
  | cons a rest ih =>
    rintro ⟨x, hx, hxb⟩
    by_cases hab : a ∈ blocked
    · have hxr : x ∈ rest := by
        rcases List.mem_cons.mp hx with h | h
        · subst h; exact absurd hab hxb
        · exact h
      obtain ⟨l1, y, l2, hdec, hl1, hy, hfind⟩ := ih ⟨x, hxr, hxb⟩
      refine ⟨a :: l1, y, l2, by rw [List.cons_append, hdec], ?_, hy, ?_⟩
      · intro z hz
        rcases List.mem_cons.mp hz with h | h
        · subst h; exact hab
        · exact hl1 z h
      · rw [List.find?_cons_of_neg _ (by simp [hab]), hfind]
    · exact ⟨[], a, rest, rfl, by simp, hab, by simp [List.find?, hab]⟩

theorem rotateQueue_disjoint (blocked l : List String)
    (h : ∀ x ∈ l, x ∉ blocked) : rotateQueue blocked l = l.rotate 1 := by
  match l with
  | [] => simp [rotateQueue]
  | [a] => simp [rotateQueue, List.rotate_singleton]
  | a :: b :: rest =>
    have hlen : ¬ ((a :: b :: rest).length ≤ 1) := by simp
    rw [rotateQueue, if_neg hlen]
    have hb : b ∉ blocked := h b (by simp)
    rw [show jsShift (a :: b :: rest) = b :: (rest ++ [a]) by simp [jsShift]]
    rw [skipBlocked_head_unblocked blocked _ b _ hb]
    rw [List.rotate_cons_succ, List.rotate_zero]
    simp

theorem rotateQueue_iterate_disjoint (blocked l : List String)
    (h : ∀ x ∈ l, x ∉ blocked) :
    ∀ n, (rotateQueue blocked)^[n] l = l.rotate n := by
  intro n
  induction n with
  | zero => simp
  | succ n ih =>
    rw [Function.iterate_succ_apply', ih,
      rotateQueue_disjoint blocked (l.rotate n)
        (fun x hx => h x (List.mem_rotate.mp hx)),
      List.rotate_rotate]

/-- C2 (amended): for a client with N >= 2 upstreams none of which is in the
BlockedSet, N consecutive rotations return the queue to its original order.
Without that disjointness precondition the ring property fails (see the
counterexample). -/
theorem claim2_rotate_ring (blocked Q : List String) (hN : 2 ≤ Q.length)
    (hdisj : ∀ x ∈ Q, x ∉ blocked) :
    (rotateQueue blocked)^[Q.length] Q = Q := by
  have _hN := hN
  rw [rotateQueue_iterate_disjoint blocked Q hdisj Q.length, List.rotate_length]

/-- C2 witness: two rotations of a two-entry queue with nothing blocked
restore the original order. -/
theorem claim2_witness :
    (rotateQueue ([] : List String))^[(["u1", "u2"] : List String).length]
      ["u1", "u2"] = ["u1", "u2"] :=
  claim2_rotate_ring [] ["u1", "u2"] (by decide) (by decide)

/-- C2 counterexample: with queue [a, b, c] and b blocked, three rotations do
not restore the original order (the blocked-head scan makes a rotation move
by more than one position), so the claim is false with no precondition on
the BlockedSet. -/
theorem claim2_counterexample :
    2 ≤ (["a", "b", "c"] : List String).length ∧
    ¬ ((rotateQueue ["b"])^[3] ["a", "b", "c"] = ["a", "b", "c"]) := by
  constructor
  · decide
  · decide

/-- C3 (amended): for a client with exactly one configured upstream, rotate
is a no-op: the queue and the rotation counter are both left unchanged (the
code returns before the counter increment when list.length <= 1), and the
call still returns the single entry (for a non-empty upstream string). -/
theorem claim3_single_upstream (blocked : List String) (u : String) (k : Nat) :
    (rotateProxy blocked { queue := [u], counter := k }).1 =
      { queue := [u], counter := k } ∧
    (u ≠ "" → (rotateProxy blocked { queue := [u], counter := k }).2 = some u) := by
  constructor
  · rfl
  · intro hu
    show getCurrentProxy blocked [u] = some u
    by_cases hb : u ∈ blocked
    · rw [getCurrentProxy,
        show ([u].find? (fun x => decide (x ∉ blocked))) = none by simp [List.find?, hb]]
      simp [hu]
    · rw [getCurrentProxy,
        show ([u].find? (fun x => decide (x ∉ blocked))) = some u by simp [List.find?, hb]]

/-- C3 counterexample: rotating a client with the single upstream u1 and
counter 0 leaves the counter at 0; it is not incremented to 1 as claimed. -/
theorem claim3_counterexample :
    (rotateProxy [] { queue := ["u1"], counter := 0 }).1.counter = 0 ∧
    ¬ ((rotateProxy [] { queue := ["u1"], counter := 0 }).1.counter = 1) := by
  exact ⟨rfl, by decide⟩

/-- C4: for a queue with at least two entries, one rotate moves the head to
the tail and then performs the bounded blocked-head scan, so the result is a
rotation of the shifted queue by at most len(queue) further steps, the
rotation counter is incremented by exactly one, and whenever the shifted
queue holds an unblocked entry the new head is its first unblocked entry. -/
theorem claim4_rotate_step (blocked l : List String) (h2 : 2 ≤ l.length) :
    (∃ k, k ≤ l.length ∧ rotateQueue blocked l = (jsShift l).rotate k) ∧
    (∀ n, (rotateProxy blocked { queue := l, counter := n }).1.counter = n + 1) ∧
    ((∃ x ∈ jsShift l, x ∉ blocked) →
      (rotateQueue blocked l).head? =
        (jsShift l).find? (fun x => decide (x ∉ blocked))) := by
  have hlen_not : ¬ (l.length ≤ 1) := by omega
  have hshift_len : (jsShift l).length = l.length := by
    cases l with
    | nil => rfl
    | cons x xs => simp [jsShift]
  refine ⟨?_, ?_, ?_⟩
  · by_cases hex : ∃ x ∈ jsShift l, x ∉ blocked
    · obtain ⟨l1, y, l2, hdec, hl1, hy, _⟩ :=
        exists_unblocked_decomp blocked (jsShift l) hex
      have hle : l1.length ≤ l.length := by
        have := congrArg List.length hdec
        simp only [List.length_append, List.length_cons] at this
        omega
      refine ⟨l1.length, hle, ?_⟩
      rw [rotateQueue, if_neg hlen_not, hdec,
        skipBlocked_reaches blocked l1 y l2 l.length hl1 hy hle,
        List.rotate_eq_drop_append_take (by simp),
        List.drop_left, List.take_left]
      simp
    · push_neg at hex
      refine ⟨l.length, Nat.le_refl _, ?_⟩
      rw [rotateQueue, if_neg hlen_not]
      exact skipBlocked_all_blocked blocked l.length (jsShift l) hex
  · intro n
    simp [rotateProxy, hlen_not]
  · intro hex
    obtain ⟨l1, y, l2, hdec, hl1, hy, hfind⟩ :=
      exists_unblocked_decomp blocked (jsShift l) hex
    have hle : l1.length ≤ l.length := by
      have := congrArg List.length hdec
      simp only [List.length_append, List.length_cons] at this
      omega
    rw [rotateQueue, if_neg hlen_not, hfind, hdec,
      skipBlocked_reaches blocked l1 y l2 l.length hl1 hy hle]
    rfl

/-- C4 witness: a concrete two-entry queue with the second entry blocked. -/
theorem claim4_witness :
    (∃ k, k ≤ (["a", "b"] : List String).length ∧
      rotateQueue ["b"] ["a", "b"] = (jsShift ["a", "b"]).rotate k) ∧
    (∀ n, (rotateProxy ["b"] { queue := ["a", "b"], counter := n }).1.counter
      = n + 1) ∧
    ((∃ x ∈ jsShift ["a", "b"], x ∉ (["b"] : List String)) →
      (rotateQueue ["b"] ["a", "b"]).head? =
        (jsShift ["a", "b"]).find? (fun x => decide (x ∉ (["b"] : List String)))) :=
  claim4_rotate_step ["b"] ["a", "b"] (by decide)

/-- C5 (amended): for a non-empty queue, getCurrent returns the first entry
not in the BlockedSet when one exists; when every entry is blocked it
fail-opens to the head entry, except that a head equal to the empty string
is falsy in list[0] || null and therefore yields None. -/
theorem claim5_getCurrent (blocked : List String) (hd : String)
    (tl : List String) :
    ((∃ x ∈ hd :: tl, x ∉ blocked) →
      getCurrentProxy blocked (hd :: tl) =
        (hd :: tl).find? (fun x => decide (x ∉ blocked)) ∧
      (getCurrentProxy blocked (hd :: tl)).isSome = true) ∧
    ((∀ x ∈ hd :: tl, x ∈ blocked) →
      getCurrentProxy blocked (hd :: tl) = if hd = "" then none else some hd) := by
  constructor
  · intro hex
    obtain ⟨l1, y, l2, _, _, _, hfind⟩ :=
      exists_unblocked_decomp blocked (hd :: tl) hex
    rw [getCurrentProxy, hfind]
    simp
  · intro hall
    have hfind : (hd :: tl).find? (fun x => decide (x ∉ blocked)) = none := by
      rw [List.find?_eq_none]
      intro x hx
      simp [hall x hx]
    rw [getCurrentProxy, hfind]

/-- C5 counterexample: the one-entry queue holding the empty string, with the
empty string in the BlockedSet: every entry is blocked and the queue is
non-empty, yet getCurrent returns None, because the empty string is falsy in
the list[0] || null fallback. -/
theorem claim5_counterexample :
    ("" ∈ ([""] : List String)) ∧ (∀ x ∈ ([""] : List String), x ∈ [""]) ∧
    getCurrentProxy [""] [""] = none := by
  refine ⟨by decide, by decide, rfl⟩

/-- C1 (amended): initializeClients of enhanced-proxy-server.js fully
reinitializes: after it, every configured client's queue is exactly the new
configuration's upstream list in its order and its counter is 0. But
loadClientsConfig of server.js deliberately preserves an existing client's
queue and counter unchanged across a reload (its comment says so); only
clients with no prior queue are initialized from the new configuration. -/
theorem claim1_config_reload (cfg : List (String × ClientConfig))
    (st : ServerState) (name : String) (c : ClientConfig) (q : List String)
    (k : Nat) (hc : jsGet cfg name = some c)
    (hq : jsGet st.currentProxies name = some q)
    (hk : jsGet st.rotationCounters name = some k) :
    (jsGet (loadClientsConfig cfg st).currentProxies name = some q ∧
     jsGet (loadClientsConfig cfg st).rotationCounters name = some k) ∧
    (jsGet (initializeClients cfg).currentProxies name = some c.proxies ∧
     jsGet (initializeClients cfg).rotationCounters name = some 0) := by
  refine ⟨⟨?_, ?_⟩, ?_, ?_⟩
  · have h1 := jsGet_map_some (fun nc : String × ClientConfig =>
      match jsGet st.currentProxies nc.1 with
      | some q2 => q2
      | none => nc.2.proxies) cfg name c hc
    simp only [hq] at h1
    exact h1
  · have h1 := jsGet_map_some (fun nc : String × ClientConfig =>
      match jsGet st.currentProxies nc.1 with
      | some _ => (jsGet st.rotationCounters nc.1).getD 0
      | none => 0) cfg name c hc
    simp only [hq, hk] at h1
    exact h1
  · exact jsGet_map_some (fun nc : String × ClientConfig => nc.2.proxies)
      cfg name c hc
  · exact jsGet_map_some (fun _ : String × ClientConfig => 0) cfg name c hc

/-- C1 witness: alice existed with queue [U1, U2, U3] and counter 5; the new
configuration gives her [U1, U3, U4]. -/
theorem claim1_witness :
    (jsGet (loadClientsConfig
        [("alice", { password := "pw", proxies := ["U1", "U3", "U4"] })]
        { currentProxies := [("alice", ["U1", "U2", "U3"])],
          rotationCounters := [("alice", 5)] }).currentProxies "alice"
        = some ["U1", "U2", "U3"] ∧
     jsGet (loadClientsConfig
        [("alice", { password := "pw", proxies := ["U1", "U3", "U4"] })]
        { currentProxies := [("alice", ["U1", "U2", "U3"])],
          rotationCounters := [("alice", 5)] }).rotationCounters "alice"
        = some 5) ∧
    (jsGet (initializeClients
        [("alice", { password := "pw", proxies := ["U1", "U3", "U4"] })]).currentProxies
        "alice"
        = some (ClientConfig.mk "pw" ["U1", "U3", "U4"]).proxies ∧
     jsGet (initializeClients
        [("alice", { password := "pw", proxies := ["U1", "U3", "U4"] })]).rotationCounters
        "alice" = some 0) :=
  claim1_config_reload
    [("alice", { password := "pw", proxies := ["U1", "U3", "U4"] })]
    { currentProxies := [("alice", ["U1", "U2", "U3"])],
      rotationCounters := [("alice", 5)] }
    "alice" { password := "pw", proxies := ["U1", "U3", "U4"] }
    ["U1", "U2", "U3"] 5 rfl rfl rfl

/-- C1 counterexample: reloading via loadClientsConfig of server.js with a
configuration that removes U2 from alice's list and adds U4 leaves alice's
existing queue [U1, U2, U3] and counter 5 untouched: the queue is not the
new configuration's list and the counter is not reset to 0. -/
theorem claim1_counterexample :
    jsGet (loadClientsConfig
        [("alice", { password := "pw", proxies := ["U1", "U3", "U4"] })]
        { currentProxies := [("alice", ["U1", "U2", "U3"])],
          rotationCounters := [("alice", 5)] }).currentProxies "alice"
      = some ["U1", "U2", "U3"] ∧
    ¬ (jsGet (loadClientsConfig
        [("alice", { password := "pw", proxies := ["U1", "U3", "U4"] })]
        { currentProxies := [("alice", ["U1", "U2", "U3"])],
          rotationCounters := [("alice", 5)] }).currentProxies "alice"
      = some ["U1", "U3", "U4"]) ∧
    ¬ (jsGet (loadClientsConfig
        [("alice", { password := "pw", proxies := ["U1", "U3", "U4"] })]
        { currentProxies := [("alice", ["U1", "U2", "U3"])],
          rotationCounters := [("alice", 5)] }).rotationCounters "alice"
      = some 0) := by
  refine ⟨rfl, by decide, by decide⟩

/-- C6 (amended): POST /block only succeeds for a URI in the authenticated
client's own pool: any other URI is rejected with 403 and the BlockedSet is
unchanged. POST /unblock performs no ownership check: it succeeds for every
URI currently in the BlockedSet, whoever it belongs to, and removes it. -/
theorem claim6_block_unblock :
    (∀ (cur : List (String × List String)) (blocked : List String)
        (user url : String) (pool : List String),
        jsGet cur user = some pool → url ∉ pool → url ≠ "" →
        blockEndpoint cur blocked user (some url) = (403, blocked)) ∧
    (∀ (blocked : List String) (user url : String),
        url ∈ blocked → url ≠ "" →
        unblockEndpoint blocked user (some url) = (200, blocked.erase url)) := by
  constructor
  · intro cur blocked user url pool hpool hnot hne
    simp [blockEndpoint, hne, hpool, hnot]
  · intro blocked user url hmem hne
    simp [unblockEndpoint, hne, hmem]

/-- C6 counterexample: alice's pool is [U1] and U9 is not in it, yet alice's
POST /unblock for U9 succeeds with 200 and removes U9 from the BlockedSet:
the request is neither rejected nor side-effect free. -/
theorem claim6_counterexample :
    jsGet [("alice", ["U1"])] "alice" = some ["U1"] ∧
    ("U9" ∉ (["U1"] : List String)) ∧
    unblockEndpoint ["U9"] "alice" (some "U9") = (200, []) := by
  refine ⟨rfl, by decide, rfl⟩

theorem tryDestroy_destroyed (s : NetSocket) : (tryDestroy s).destroyed = true := by
  rcases s with ⟨d⟩
  cases d <;> rfl

/-- C7: closeAll on a client with K registered tunnel pairs returns K,
destroys both sockets of every pair (errors from already-destroyed sockets
are swallowed by the try/catch, so destruction is total), clears the
client's tunnel set, and a second closeAll immediately afterwards returns
0. -/
theorem claim7_closeAll (set : List TunnelPair) :
    (closeUserTunnels (some set)).1 = set.length ∧
    (closeUserTunnels (some set)).2.2 = some [] ∧
    ((closeUserTunnels (some set)).2.1.all
      (fun p => p.clientSocket.destroyed && p.proxySocket.destroyed)) = true ∧
    (closeUserTunnels ((closeUserTunnels (some set)).2.2)).1 = 0 := by
  refine ⟨rfl, rfl, ?_, rfl⟩
  rw [List.all_eq_true]
  intro p hp
  rcases List.mem_map.mp hp with ⟨q, _, rfl⟩
  simp [tryDestroy_destroyed]

/-- C8 (the code's behavior at the failing input): with only alice
registered, the well-formed header for alice succeeds and a wrong secret or
a missing header fails as claimed, but the header Basic ZXZl, whose base64
token decodes to the colon-free text eve naming no registered user, is
accepted and authenticates as eve: the destructured p is undefined, users[u]
is undefined, and undefined === undefined holds. -/
theorem claim8_auth_bypass :
    jsGet [("alice", "secret1")] "eve" = none ∧
    authenticate [("alice", "secret1")] (some "Basic ZXZl") = some "eve" ∧
    authenticate [("alice", "secret1")]
      (some ("Basic " ++ base64Encode "alice:secret1")) = some "alice" ∧
    authenticate [("alice", "secret1")]
      (some ("Basic " ++ base64Encode "alice:secret2")) = none ∧
    authenticate [("alice", "secret1")] none = none := by
  refine ⟨rfl, by decide, by decide, by decide, rfl⟩

theorem authenticate_some_inv (users : List (String × String))
    (header : Option String) (v : String)
    (h : authenticate users header = some v) :
    ∃ parts : List (List Char), (∀ part ∈ parts, ':' ∉ part) ∧
      jsGet users v = (parts[1]?).map String.mk := by
  rcases header with _ | s
  · simp [authenticate] at h
  · simp only [authenticate] at h
    by_cases h0 : s = ""
    · rw [if_pos h0] at h
      exact absurd h (by simp)
    · rw [if_neg h0] at h
      by_cases hpre : startsWith "Basic ".data s.data = false
      · rw [if_pos hpre] at h
        exact absurd h (by simp)
      · rw [if_neg hpre] at h
        set parts := splitOnChar ':'
          (base64DecodeChars (((splitOnChar ' ' s.data)[1]?).getD [])) with hp
        by_cases hcmp : (jsGet users (String.mk (parts.headD []))
            == (parts[1]?).map String.mk) = true
        · rw [if_pos hcmp] at h
          have hv : String.mk (parts.headD []) = v := Option.some.inj h
          refine ⟨parts, ?_, ?_⟩
          · rw [hp]
            exact splitOnChar_sep_not_mem ':' _
          · rw [← hv]
            exact eq_of_beq hcmp
        · rw [if_neg hcmp] at h
          exact absurd h (by simp)

/-- C10: a registered user whose stored secret contains a colon can never be
authenticated by any header value: the decoded credentials are split on
every colon, so the compared second piece never contains a colon and never
equals the stored secret. -/
theorem claim10_colon_secret (users : List (String × String))
    (u secret : String) (header : Option String)
    (hreg : jsGet users u = some secret) (hcolon : ':' ∈ secret.data) :
    (authenticate users header == some u) = false := by
  cases hb : (authenticate users header == some u) with
  | false => rfl
  | true =>
    exfalso
    obtain ⟨parts, hparts, hjs⟩ :=
      authenticate_some_inv users header u (eq_of_beq hb)
    rw [hreg] at hjs
    rcases h1 : parts[1]? with _ | part
    · rw [h1] at hjs
      simp at hjs
    · rw [h1] at hjs
      simp only [Option.map_some', Option.some.injEq] at hjs
      apply hparts part (List.getElem?_mem h1)
      have hdata : secret.data = part := by rw [hjs]
      rw [← hdata]
      exact hcolon

/-- C10 witness: alice's stored secret a:b contains a colon, so even the
well-formed header Basic base64(alice:a:b) fails. -/
theorem claim10_witness :
    (authenticate [("alice", "a:b")] (some "Basic YWxpY2U6YTpi")
      == some "alice") = false :=
  claim10_colon_secret [("alice", "a:b")] "alice" "a:b"
    (some "Basic YWxpY2U6YTpi") rfl (by decide)

/-- C9: the outbound options of handleHttpProxy keep the inbound method and
path, copy every inbound header except the inbound proxy-authorization
header (Node lowercases inbound header names, so none of them is the
capitalized key), never forward any proxy-authorization key, add nothing
but the injected header, and carry exactly one Proxy-Authorization header
whose value is Basic base64(upstreamUser:upstreamPass). -/
theorem claim9_http_forward (up : UpstreamInfo) (method url : String)
    (hs : List (String × String))
    (hin : ∀ kv ∈ hs, kv.1 ≠ "Proxy-Authorization") :
    (buildUpstreamOptions up method url hs).method = method ∧
    (buildUpstreamOptions up method url hs).path = url ∧
    (buildUpstreamOptions up method url hs).hostname = up.host ∧
    (buildUpstreamOptions up method url hs).port = up.port ∧
    (∀ kv ∈ hs, kv.1 ≠ "proxy-authorization" →
      kv ∈ (buildUpstreamOptions up method url hs).headers) ∧
    (∀ kv ∈ (buildUpstreamOptions up method url hs).headers,
      kv.1 ≠ "proxy-authorization") ∧
    (∀ kv ∈ (buildUpstreamOptions up method url hs).headers,
      kv ∈ hs ∨ kv = ("Proxy-Authorization", proxyAuthHeaderValue up)) ∧
    ((buildUpstreamOptions up method url hs).headers.countP
      (fun kv => kv.1 == "Proxy-Authorization")) = 1 := by
  have hnokey : (hs.any (fun kv => kv.1 == "Proxy-Authorization")) = false := by
    rw [List.any_eq_false]
    intro kv hkv
    simpa using hin kv hkv
  have hheaders : (buildUpstreamOptions up method url hs).headers =
      hs.filter (fun kv => !(kv.1 == "proxy-authorization")) ++
        [("Proxy-Authorization", proxyAuthHeaderValue up)] := by
    show headersDelete (headersSet hs "Proxy-Authorization"
      (proxyAuthHeaderValue up)) "proxy-authorization" = _
    rw [headersSet, hnokey, if_neg (by simp), headersDelete,
      List.filter_append]
    simp
  refine ⟨rfl, rfl, rfl, rfl, ?_, ?_, ?_, ?_⟩
  · intro kv hkv hne
    rw [hheaders]
    exact List.mem_append_left _ (List.mem_filter.mpr ⟨hkv, by simpa using hne⟩)
  · intro kv hkv
    rw [hheaders] at hkv
    rcases List.mem_append.mp hkv with hmem | hmem
    · simpa using (List.mem_filter.mp hmem).2
    · simp only [List.mem_singleton] at hmem
      subst hmem
      exact (by decide : ("Proxy-Authorization" : String) ≠ "proxy-authorization")
  · intro kv hkv
    rw [hheaders] at hkv
    rcases List.mem_append.mp hkv with hmem | hmem
    · exact Or.inl (List.mem_of_mem_filter hmem)
    · simp only [List.mem_singleton] at hmem
      exact Or.inr hmem
  · rw [hheaders, List.countP_append]
    have h0 : (hs.filter (fun kv => !(kv.1 == "proxy-authorization"))).countP
        (fun kv => kv.1 == "Proxy-Authorization") = 0 := by
      rw [List.countP_eq_zero]
      intro kv hkv
      simpa using hin kv (List.mem_of_mem_filter hkv)
    rw [h0]
    simp [List.countP_cons]

/-- C9 witness: a concrete inbound request whose headers carry the inbound
proxy-authorization header. -/
theorem claim9_witness :
    (buildUpstreamOptions ⟨"proxy.example", 8000, "u1", "p1"⟩ "GET" "http://t/"
      [("host", "t"), ("proxy-authorization", "Basic abc")]).method = "GET" ∧
    (buildUpstreamOptions ⟨"proxy.example", 8000, "u1", "p1"⟩ "GET" "http://t/"
      [("host", "t"), ("proxy-authorization", "Basic abc")]).path = "http://t/" ∧
    (buildUpstreamOptions ⟨"proxy.example", 8000, "u1", "p1"⟩ "GET" "http://t/"
      [("host", "t"), ("proxy-authorization", "Basic abc")]).hostname =
      (⟨"proxy.example", 8000, "u1", "p1"⟩ : UpstreamInfo).host ∧
    (buildUpstreamOptions ⟨"proxy.example", 8000, "u1", "p1"⟩ "GET" "http://t/"
      [("host", "t"), ("proxy-authorization", "Basic abc")]).port =
      (⟨"proxy.example", 8000, "u1", "p1"⟩ : UpstreamInfo).port ∧
    (∀ kv ∈ [("host", "t"), ("proxy-authorization", "Basic abc")],
      kv.1 ≠ "proxy-authorization" →
      kv ∈ (buildUpstreamOptions ⟨"proxy.example", 8000, "u1", "p1"⟩ "GET"
        "http://t/" [("host", "t"), ("proxy-authorization", "Basic abc")]).headers) ∧
    (∀ kv ∈ (buildUpstreamOptions ⟨"proxy.example", 8000, "u1", "p1"⟩ "GET"
        "http://t/" [("host", "t"), ("proxy-authorization", "Basic abc")]).headers,
      kv.1 ≠ "proxy-authorization") ∧
    (∀ kv ∈ (buildUpstreamOptions ⟨"proxy.example", 8000, "u1", "p1"⟩ "GET"
        "http://t/" [("host", "t"), ("proxy-authorization", "Basic abc")]).headers,
      kv ∈ [("host", "t"), ("proxy-authorization", "Basic abc")] ∨
      kv = ("Proxy-Authorization",
        proxyAuthHeaderValue ⟨"proxy.example", 8000, "u1", "p1"⟩)) ∧
    ((buildUpstreamOptions ⟨"proxy.example", 8000, "u1", "p1"⟩ "GET" "http://t/"
      [("host", "t"), ("proxy-authorization", "Basic abc")]).headers.countP
      (fun kv => kv.1 == "Proxy-Authorization")) = 1 :=
  claim9_http_forward ⟨"proxy.example", 8000, "u1", "p1"⟩ "GET" "http://t/"
    [("host", "t"), ("proxy-authorization", "Basic abc")] (by decide)
